import Mathlib

/-!
Shallow embedding of the DiffServer job-orchestration pipeline
(`ai_picture_processor.py`) and of its image utilities (`image_utils.py`).

Pure control flow and bookkeeping are translated statement by statement.
Calls that cross a process boundary (the remote AI service, `requests`,
`cv2`, the file system) are modelled as oracle parameters or as recorded
effects on the state, never as stubs of control flow that exists in this
repository.
-/

/-- The Python exception classes that the embedded code can raise. -/
inductive PyErr
  | attributeError
  | nameError
  | typeError
  | valueError
  deriving DecidableEq, Repr

/-- First-match association-list lookup, modelling Python `dict.get`. -/
def lookupKey {α β : Type} [DecidableEq α] (k : α) : List (α × β) → Option β
  | [] => none
  | kv :: rest => if kv.1 = k then some kv.2 else lookupKey k rest

/-- Remove every binding of key `k`, modelling `dict.pop(k, None)`'s effect. -/
def eraseKey {α β : Type} [DecidableEq α] (k : α) : List (α × β) → List (α × β)
  | [] => []
  | kv :: rest => if kv.1 = k then eraseKey k rest else kv :: eraseKey k rest

/-- Overwrite the value bound to `k`, modelling in-place mutation of the stored
object (`tracker.done += 1` mutates the object held by the registry). -/
def updateKey {α β : Type} [DecidableEq α] (k : α) (v : β) (l : List (α × β)) :
    List (α × β) :=
  l.map fun kv => if kv.1 = k then (k, v) else kv

/-- `TaskMeta` dataclass (ai_picture_processor.py lines 14-19).  Job
identifiers (uuid hex strings in the source) are modelled as `Nat`. -/
structure TaskMeta where
  task_id : String
  output : String
  job_id : Nat
  feather : Bool
  deriving DecidableEq, Repr

/-- `JobTracker` dataclass (lines 21-26); the per-tracker lock is the
atomicity of the steps below, and `parts_seen` is the dedup set. -/
structure JobTracker where
  expected : Nat
  done : Nat
  parts_seen : List String
  deriving DecidableEq, Repr

/-- The `data` member of a callback payload. -/
structure FileData where
  fileUrl : Option String
  deriving DecidableEq, Repr

/-- The `eventData` member of a callback payload; `none` fields model
missing dictionary keys. -/
structure EventData where
  code : Option Int
  data : Option FileData
  deriving DecidableEq, Repr

/-- An inbound callback payload `{"taskId": ..., "eventData": ...}`. -/
structure Payload where
  taskId : Option String
  eventData : Option EventData
  deriving DecidableEq, Repr

/-- Pixel-space axis-aligned bounding box `[x_min, y_min, x_max, y_max]`. -/
structure BBox where
  x_min : ℤ
  y_min : ℤ
  x_max : ℤ
  y_max : ℤ
  deriving DecidableEq, Repr

/-- One extraction result of `crop_patches_aabb_from_paths` (the PNG bytes are
produced by `cv2.imencode` and are not needed by any property, so they are
not carried). -/
structure Patch where
  part_id : String
  prompt : String
  bbox : BBox
  deriving DecidableEq, Repr

/-- The mutable state of one `AIPictureProcessor` instance, together with
effect logs.  `semValue` is the current value of the bounded inflight
semaphore, `capacity` its fixed bound (`max_inflight`).  `acquires` counts
semaphore acquisitions, `releaseEvents` logs the guarded releases performed by
`on_callback`, `hookLog` logs invocations of `_on_job_complete`, `downloads`
logs download attempts, `saves` logs `save_image` calls with their actual
arguments, and `pending` logs deferred work handed to the callback pool. -/
structure ProcState where
  capacity : Nat
  semValue : Nat
  acquires : Nat
  task_map : List (String × TaskMeta)
  released : List String
  releaseEvents : List String
  jobs : List (Nat × JobTracker)
  nextJobId : Nat
  hookLog : List (Nat × JobTracker)
  downloads : List (Option String)
  saves : List (List Nat × String × Bool)
  pending : List Payload
  deriving DecidableEq, Repr

/-- State right after `AIPictureProcessor.__init__` with
`max_inflight = c`: the bounded semaphore holds `c` permits and every
registry is empty. -/
def initState (c : Nat) : ProcState :=
  { capacity := c, semValue := c, acquires := 0, task_map := [], released := [],
    releaseEvents := [], jobs := [], nextJobId := 0, hookLog := [],
    downloads := [], saves := [], pending := [] }

/-- The instance attributes assigned by `AIPictureProcessor.__init__`
(lines 37-48).  The submission line of `on_callback` refers to
`callback_exec`, which is not among them: the pool is stored as
`callback_pool`. -/
def initAttrs : List String :=
  ["ai", "inflight_sem", "submit_pool", "callback_pool", "_lock", "task_map",
   "_released", "jobs", "_on_job_complete"]

/-- `try: self.inflight_sem.release() except Exception: pass` on a
`BoundedSemaphore`: over-release raises `ValueError`, which is swallowed,
so the value is capped at the configured capacity. -/
def exceptRelease (s : ProcState) : ProcState :=
  { s with semValue := if s.semValue < s.capacity then s.semValue + 1 else s.semValue }

/-- `AIPictureProcessor.on_callback` (lines 120-139).  The guarded release of
lines 130-136 runs first; line 139 then evaluates `self.callback_exec`, an
attribute `__init__` never defines, so it raises `AttributeError` for every
payload (CPython resolves the attribute of the call target before evaluating
the argument `meta`, so the unbound local `meta` of an empty `taskId` is
preempted; the dead branches model what the line would do otherwise). -/
def onCallback (p : Payload) (s : ProcState) : ProcState × Except PyErr Unit :=
  let task_id := p.taskId.getD ""
  let s1 :=
    if task_id ≠ "" ∧ task_id ∉ s.released then
      { exceptRelease s with
        released := (task_id :: s.released),
        releaseEvents := (task_id :: s.releaseEvents) }
    else s
  if "callback_exec" ∈ initAttrs then
    if task_id ≠ "" then
      ({ s1 with pending := (p :: s1.pending) }, Except.ok ())
    else (s1, Except.error PyErr.nameError)
  else (s1, Except.error PyErr.attributeError)

/-- Aggregation tail of `_run_callback` (lines 167-192): under the tracker
lock, dedup on the seen-set and increment `done`; then, when `done` has
reached `expected`, pop the registry entry and invoke the completion hook on
the popped tracker (recorded in `hookLog`; exceptions of the hook are
swallowed by the source). -/
def aggregate (task_id : String) (job_id : Nat) (s : ProcState) : ProcState :=
  match lookupKey job_id s.jobs with
  | none => s
  | some tracker =>
    if task_id ∈ tracker.parts_seen then s
    else
      let tr : JobTracker :=
        { tracker with
          parts_seen := (task_id :: tracker.parts_seen),
          done := tracker.done + 1 }
      let s1 := { s with jobs := updateKey job_id tr s.jobs }
      if tr.expected ≤ tr.done then
        { s1 with
          jobs := eraseKey job_id s1.jobs,
          hookLog := ((job_id, tr) :: s1.hookLog) }
      else s1

/-- `AIPictureProcessor._run_callback` (lines 141-192), the deferred
download/save/aggregate work.  `dl` abstracts
`AIClient.download_from_callback`; the concrete client always raises (see
`downloadFromCallback`), and a download failure is printed and leaves the
local `piece` unbound, so the following `save_image` line raises `NameError`.
In the `dl`-success continuation the `save_image(piece, out, feather)` call
is recorded with its arguments exactly as passed at line 165 (the
`save_image(path, img, feature)` signature receives them swapped); the
continuation is kept so the registry logic of lines 167-192 can be analysed
on its own input space. -/
def runCallback (dl : Option String → Except Unit (List Nat)) (p : Payload)
    (meta : Option TaskMeta) (s : ProcState) : ProcState × Option PyErr :=
  match meta with
  | none => (s, none)
  | some m =>
    let s2 := { s with task_map := eraseKey m.task_id s.task_map }
    match p.eventData with
    | none => (s2, none)
    | some ed =>
      if ed.code ≠ some 0 then (s2, none)
      else
        match ed.data with
        | none => (s2, some PyErr.attributeError)
        | some d =>
          let s3 := { s2 with downloads := (d.fileUrl :: s2.downloads) }
          match dl d.fileUrl with
          | Except.error _ => (s3, some PyErr.nameError)
          | Except.ok piece =>
            let s4 := { s3 with saves := ((piece, m.output, m.feather) :: s3.saves) }
            (aggregate m.task_id m.job_id s4, none)

/-- `AIPictureProcessor._start_tracker` (lines 51-55); `uuid4().hex`
freshness is modelled by the `nextJobId` counter. -/
def startTracker (expected : Nat) (s : ProcState) : Nat × ProcState :=
  (s.nextJobId,
   { s with
     jobs := ((s.nextJobId, { expected := expected, done := 0, parts_seen := [] }) :: s.jobs),
     nextJobId := s.nextJobId + 1 })

/-- `os.path.dirname` for the `/`-separated paths this repository uses (the
value only feeds the dead `out` string below). -/
def pyDirname (p : String) : String :=
  let parts := p.splitOn "/"
  if parts.length ≤ 1 then "" else String.intercalate "/" parts.dropLast

/-- The `TaskMeta(task_id=task, output=out, part_id=p["part_id"], feather=True)`
call at line 108: `part_id` is not a field of the `TaskMeta` dataclass, so the
constructor raises `TypeError` before anything is stored. -/
def mkTaskMetaBatch (_task _out _part_id : String) : Except PyErr TaskMeta :=
  .error PyErr.typeError

/-- Result of `run_batch_job`: the early-return dict for zero patches, the
implicit `None` when the loop finishes, a propagated exception, or a forever
blocking `acquire`. -/
inductive BatchOutcome
  | ret (jobId : Nat) (parts : List String)
  | noneRet
  | raised (e : PyErr)
  | blocked
  deriving DecidableEq, Repr

/-- The per-patch dispatch loop of `run_batch_job` (lines 102-117): acquire
the semaphore, create the remote task (`ct` abstracts
`AIClient.run_batch_task`), build the `TaskMeta`, store it; on any exception
release the acquired permit and re-raise, which aborts the loop. -/
def dispatchLoop (ct : Patch → Except PyErr String) (img : String) :
    List Patch → ProcState → ProcState × BatchOutcome
  | [], s => (s, BatchOutcome.noneRet)
  | p :: rest, s =>
    if s.semValue = 0 then (s, BatchOutcome.blocked)
    else
      let s1 := { s with semValue := s.semValue - 1, acquires := s.acquires + 1 }
      match ct p with
      | Except.error e => (exceptRelease s1, BatchOutcome.raised e)
      | Except.ok task =>
        let out := pyDirname img ++ "region" ++ p.part_id ++ ".png"
        match mkTaskMetaBatch task out p.part_id with
        | Except.error e => (exceptRelease s1, BatchOutcome.raised e)
        | Except.ok m =>
          let s2 := { s1 with task_map := ((task, m) :: s1.task_map) }
          dispatchLoop ct img rest s2

/-- `AIPictureProcessor.run_batch_job` (lines 86-117).  `patches` is the
result of `crop_patches_aabb_from_paths` on the image and config.  A tracker
with `expected = 1` is started and its id returned; a second tracker with
`expected = n` is started and its id discarded; with zero patches the
function returns at once, otherwise it runs the dispatch loop.  The local
`parts_meta` list is never returned nor read, so it is not carried. -/
def runBatchJob (ct : Patch → Except PyErr String) (img : String)
    (patches : List Patch) (s : ProcState) : ProcState × BatchOutcome :=
  let pr := startTracker 1 s
  let n := patches.length
  let s2 := (startTracker n pr.2).2
  if n = 0 then (s2, BatchOutcome.ret pr.1 [])
  else dispatchLoop ct img patches s2

/-- Coordinate-origin mode of the patch extractor. -/
inductive CoordOrigin
  | topLeft
  | bottomLeft
  deriving DecidableEq, Repr

/-- One normalized 2-D point of a region (floats are modelled as rationals). -/
structure NormPoint where
  x : ℚ
  y : ℚ
  deriving DecidableEq, Repr

/-- One entry of the `differences` array of a region config. -/
structure Region where
  points : List NormPoint
  text : String
  deriving DecidableEq, Repr

/-- `_norm_points_to_pixels` (image_utils.py lines 27-38): map each
normalized point to pixel space with `x_px = x * (W - 1)` and, for the
`bottom-left` origin, `y_px = (1 - y) * (H - 1)`, else `y_px = y * (H - 1)`. -/
def normPointsToPixels (points : List NormPoint) (W H : ℤ) (origin : CoordOrigin) :
    List (ℚ × ℚ) :=
  points.map fun p =>
    (p.x * ((W : ℚ) - 1),
      match origin with
      | CoordOrigin.bottomLeft => (1 - p.y) * ((H : ℚ) - 1)
      | CoordOrigin.topLeft => p.y * ((H : ℚ) - 1))

/-- Per-region body of the loop of `crop_patches_aabb_from_paths`
(lines 56-79): skip regions with fewer than 4 points, take floor/ceil of the
coordinate minima/maxima clamped to the image, and skip boxes without
positive width and height.  `cv2.imencode` is modelled as succeeding; it can
only drop a patch, never alter one. -/
def cropRegion (W H : ℤ) (origin : CoordOrigin) (idx : Nat) (d : Region) :
    Option Patch :=
  if d.points.length < 4 then none
  else
    match normPointsToPixels d.points W H origin with
    | [] => none
    | q :: qs =>
      let xmn := qs.foldl (fun a pr => min a pr.1) q.1
      let xmx := qs.foldl (fun a pr => max a pr.1) q.1
      let ymn := qs.foldl (fun a pr => min a pr.2) q.2
      let ymx := qs.foldl (fun a pr => max a pr.2) q.2
      let x0 := max 0 ⌊xmn⌋
      let x1 := min W ⌈xmx⌉
      let y0 := max 0 ⌊ymn⌋
      let y1 := min H ⌈ymx⌉
      if x1 ≤ x0 ∨ y1 ≤ y0 then none
      else some
        { part_id := toString idx, prompt := d.text,
          bbox := { x_min := x0, y_min := y0, x_max := x1, y_max := y1 } }

/-- `crop_patches_aabb_from_paths` (lines 40-81) after image decode and
config parse: enumerate the `differences` with their original indices and
keep the regions that survive the filters. -/
def cropPatchesAABB (W H : ℤ) (diffs : List Region) (origin : CoordOrigin) :
    List Patch :=
  diffs.enum.filterMap fun pr => cropRegion W H origin pr.1 pr.2

/-- The bordered interior mask of `feather_image` (lines 98-103): zero on
the outermost pixel ring and 255 inside, except that images with a
dimension of at most 2 pixels get an all-255 mask. -/
def interiorMask (nRows nCols i j : Nat) : Nat :=
  if 2 < nRows ∧ 2 < nCols then
    if 1 ≤ i ∧ i < nRows - 1 ∧ 1 ≤ j ∧ j < nCols - 1 then 255 else 0
  else 255

/-- An image: `channels` is 1 (grayscale), 3 (BGR) or 4 (BGRA); `px r c ch`
is the 0..255 sample of channel `ch` at row `r`, column `c`. -/
structure Image where
  rows : Nat
  cols : Nat
  channels : Nat
  px : Nat → Nat → Nat → Nat

/-- The float alpha in `[0,1]` of `feather_image` (lines 110-115): for a
positive radius, the distance transform normalized by the radius and
clamped; for radius 0, the binary mask. -/
def alphaUnit (dist : Nat → Nat → ℚ) (feather : Nat) (nRows nCols i j : Nat) : ℚ :=
  if 0 < feather then min 1 (max 0 (dist i j / (feather : ℚ)))
  else if 0 < interiorMask nRows nCols i j then 1 else 0

/-- `feather_image` (lines 83-137) on the default call (`shrink = 0` and
`gamma = 1.0`, so the erosion branch of lines 106-108 and the power branch of
lines 117-118 are skipped).  `dist` abstracts `cv2.distanceTransform` and is
never consulted when the radius is 0.  The computed alpha is multiplied with
any pre-existing alpha, scaled to 0..255 with the `+ 0.5` rounding of
line 135, and written as channel 3 of the BGRA output. -/
def featherImage (dist : Nat → Nat → ℚ) (img : Image) (feather : Nat) :
    Except PyErr Image :=
  if img.rows = 0 ∨ img.cols = 0 then Except.error PyErr.valueError
  else if img.channels = 1 ∨ img.channels = 3 ∨ img.channels = 4 then
    Except.ok
      { rows := img.rows, cols := img.cols, channels := 4,
        px := fun i j c =>
          if c < 3 then
            (if img.channels = 1 then img.px i j 0 else img.px i j c)
          else
            let a0 : ℚ := if img.channels = 4 then (img.px i j 3 : ℚ) / 255 else 1
            let a : ℚ :=
              min 1 (max 0 (alphaUnit dist feather img.rows img.cols i j * a0))
            (⌊a * 255 + 1 / 2⌋).toNat }
  else Except.error PyErr.valueError

/-- Channel-3 sample of a `feather_image` result, when it returned one. -/
def outAlpha (r : Except PyErr Image) (i j : Nat) : Option Nat :=
  match r with
  | Except.ok o => some (o.px i j 3)
  | Except.error _ => none

/-- One atomic operation of the orchestrator, as executed by some worker
thread: starting a tracker, storing a `TaskMeta` (line 108's intent),
acquiring the inflight semaphore (line 103, enabled only when a permit is
free), the bare except-branch release (lines 77 and 115), an inbound
callback (`on_callback`, whose guarded release takes effect even though the
function then raises), the deferred handler on the meta looked up at
line 132 (as run by the callback worker pool), and a whole batch
submission. -/
inductive Step : ProcState → ProcState → Prop
  | start (s : ProcState) (expected : Nat) : Step s (startTracker expected s).2
  | registerTask (s : ProcState) (m : TaskMeta) :
      Step s { s with task_map := ((m.task_id, m) :: s.task_map) }
  | acquire (s : ProcState) (h : 0 < s.semValue) :
      Step s { s with semValue := s.semValue - 1, acquires := s.acquires + 1 }
  | failRelease (s : ProcState) : Step s (exceptRelease s)
  | inbound (s : ProcState) (p : Payload) : Step s (onCallback p s).1
  | deferred (s : ProcState) (dl : Option String → Except Unit (List Nat))
      (p : Payload) :
      Step s (runCallback dl p (lookupKey (p.taskId.getD "") s.task_map) s).1
  | batch (s : ProcState) (ct : Patch → Except PyErr String) (img : String)
      (patches : List Patch) : Step s (runBatchJob ct img patches s).1

/-- States reachable from a freshly constructed processor by any
interleaving of the atomic operations above. -/
inductive Reach : ProcState → Prop
  | init (c : Nat) : Reach (initState c)
  | next {s s' : ProcState} : Reach s → Step s s' → Reach s'

/-- Occurrences of key `k` among the first components of an association list. -/
def countKey {α β : Type} [DecidableEq α] (k : α) : List (α × β) → Nat
  | [] => 0
  | kv :: rest => (if kv.1 = k then 1 else 0) + countKey k rest

/-- Occurrences of an element in a list. -/
def countElem {α : Type} [DecidableEq α] (k : α) : List α → Nat
  | [] => 0
  | x :: rest => (if x = k then 1 else 0) + countElem k rest

/-- How many times the completion hook has fired for job `j`. -/
def countHook (s : ProcState) (j : Nat) : Nat :=
  countKey j s.hookLog

/-- How many guarded releases `on_callback` has performed for task id `t`. -/
def countRel (s : ProcState) (t : String) : Nat :=
  countElem t s.releaseEvents

theorem lookupKey_cons {α β : Type} [DecidableEq α] (j : α) (kv : α × β)
    (l : List (α × β)) :
    lookupKey j (kv :: l) = if kv.1 = j then some kv.2 else lookupKey j l := rfl

theorem lookupKey_eraseKey_self {α β : Type} [DecidableEq α] (k : α)
    (l : List (α × β)) : lookupKey k (eraseKey k l) = none := by
  induction l with
  | nil => rfl
  | cons kv rest ih =>
    by_cases h : kv.1 = k
    · simpa [eraseKey, h] using ih
    · simpa [eraseKey, lookupKey, h] using ih

theorem lookupKey_eraseKey_ne {α β : Type} [DecidableEq α] {j k : α}
    (h : j ≠ k) (l : List (α × β)) :
    lookupKey j (eraseKey k l) = lookupKey j l := by
  induction l with
  | nil => rfl
  | cons kv rest ih =>
    by_cases hk : kv.1 = k
    · have hkj : k ≠ j := fun e => h e.symm
      simp [eraseKey, lookupKey, hk, hkj, ih]
    · simp only [eraseKey, hk, if_false, lookupKey]
      by_cases hj : kv.1 = j
      · simp [hj]
      · simp [hj, ih]

theorem lookupKey_updateKey_self {α β : Type} [DecidableEq α] (k : α) (v : β)
    (l : List (α × β)) :
    lookupKey k (updateKey k v l) = (lookupKey k l).map fun _ => v := by
  induction l with
  | nil => rfl
  | cons kv rest ih =>
    by_cases h : kv.1 = k
    · simp [updateKey, lookupKey, h]
    · simp only [updateKey, lookupKey, h, if_false] at *
      exact ih

theorem lookupKey_updateKey_ne {α β : Type} [DecidableEq α] {j k : α} (v : β)
    (h : j ≠ k) (l : List (α × β)) :
    lookupKey j (updateKey k v l) = lookupKey j l := by
  induction l with
  | nil => rfl
  | cons kv rest ih =>
    simp only [updateKey] at ih ⊢
    rw [List.map_cons]
    by_cases hk : kv.1 = k
    · have hkj : k ≠ j := fun e => h e.symm
      simp [lookupKey, hk, hkj, ih]
    · simp only [hk, if_false, lookupKey]
      by_cases hj : kv.1 = j
      · simp [hj]
      · simp [hj, ih]

theorem countKey_cons {α β : Type} [DecidableEq α] (k : α) (kv : α × β)
    (l : List (α × β)) :
    countKey k (kv :: l) = (if kv.1 = k then 1 else 0) + countKey k l := rfl

theorem countElem_cons {α : Type} [DecidableEq α] (k x : α) (l : List α) :
    countElem k (x :: l) = (if x = k then 1 else 0) + countElem k l := rfl

theorem callback_exec_not_defined : "callback_exec" ∉ initAttrs := by decide

theorem onCallback_eq (p : Payload) (s : ProcState) :
    onCallback p s =
      ((if p.taskId.getD "" ≠ "" ∧ p.taskId.getD "" ∉ s.released then
          { exceptRelease s with
            released := ((p.taskId.getD "") :: s.released),
            releaseEvents := ((p.taskId.getD "") :: s.releaseEvents) }
        else s), Except.error PyErr.attributeError) := by
  unfold onCallback
  rw [if_neg callback_exec_not_defined]

theorem aggregate_frame (tid : String) (jid : Nat) (s : ProcState) :
    (aggregate tid jid s).semValue = s.semValue ∧
    (aggregate tid jid s).capacity = s.capacity ∧
    (aggregate tid jid s).released = s.released ∧
    (aggregate tid jid s).releaseEvents = s.releaseEvents ∧
    (aggregate tid jid s).nextJobId = s.nextJobId ∧
    (aggregate tid jid s).acquires = s.acquires ∧
    (aggregate tid jid s).task_map = s.task_map := by
  unfold aggregate
  cases h : lookupKey jid s.jobs with
  | none => exact ⟨rfl, rfl, rfl, rfl, rfl, rfl, rfl⟩
  | some tracker =>
    dsimp only
    by_cases hseen : tid ∈ tracker.parts_seen
    · rw [if_pos hseen]
      exact ⟨rfl, rfl, rfl, rfl, rfl, rfl, rfl⟩
    · rw [if_neg hseen]
      split <;> exact ⟨rfl, rfl, rfl, rfl, rfl, rfl, rfl⟩

theorem runCallback_cases (dl : Option String → Except Unit (List Nat)) (p : Payload)
    (meta : Option TaskMeta) (s : ProcState) :
    ((runCallback dl p meta s).1.jobs = s.jobs ∧
     (runCallback dl p meta s).1.hookLog = s.hookLog ∧
     (runCallback dl p meta s).1.nextJobId = s.nextJobId ∧
     (runCallback dl p meta s).1.semValue = s.semValue ∧
     (runCallback dl p meta s).1.capacity = s.capacity ∧
     (runCallback dl p meta s).1.released = s.released ∧
     (runCallback dl p meta s).1.releaseEvents = s.releaseEvents) ∨
    (∃ tid jid s4,
      (runCallback dl p meta s).1 = aggregate tid jid s4 ∧
      s4.jobs = s.jobs ∧ s4.hookLog = s.hookLog ∧ s4.nextJobId = s.nextJobId ∧
      s4.semValue = s.semValue ∧ s4.capacity = s.capacity ∧
      s4.released = s.released ∧ s4.releaseEvents = s.releaseEvents) := by
  unfold runCallback
  cases meta with
  | none => exact Or.inl ⟨rfl, rfl, rfl, rfl, rfl, rfl, rfl⟩
  | some m =>
    dsimp only
    cases hpe : p.eventData with
    | none => exact Or.inl ⟨rfl, rfl, rfl, rfl, rfl, rfl, rfl⟩
    | some ed =>
      dsimp only
      by_cases hc : ed.code ≠ some 0
      · rw [if_pos hc]
        exact Or.inl ⟨rfl, rfl, rfl, rfl, rfl, rfl, rfl⟩
      · rw [if_neg hc]
        cases hd : ed.data with
        | none => exact Or.inl ⟨rfl, rfl, rfl, rfl, rfl, rfl, rfl⟩
        | some d =>
          dsimp only
          cases hdl : dl d.fileUrl with
          | error e => exact Or.inl ⟨rfl, rfl, rfl, rfl, rfl, rfl, rfl⟩
          | ok piece =>
            dsimp only
            refine Or.inr ⟨m.task_id, m.job_id, _, rfl, rfl, rfl, rfl, rfl, rfl, rfl, rfl⟩

/-- The invariant of the job registry: every registered tracker satisfies
`done ≤ expected` and has not yet fired its hook; no job fires its hook
twice; ids at or above the freshness counter are unused. -/
def InvJobs (s : ProcState) : Prop :=
  (∀ j t, lookupKey j s.jobs = some t → t.done ≤ t.expected ∧ countHook s j = 0) ∧
  (∀ j, countHook s j ≤ 1) ∧
  (∀ j, s.nextJobId ≤ j → lookupKey j s.jobs = none ∧ countHook s j = 0)

theorem invJobs_of_eq {s s' : ProcState} (hj : s'.jobs = s.jobs)
    (hh : s'.hookLog = s.hookLog) (hn : s'.nextJobId = s.nextJobId)
    (h : InvJobs s) : InvJobs s' := by
  unfold InvJobs countHook at *
  rw [hj, hh, hn]
  exact h

theorem invJobs_startTracker (e : Nat) (s : ProcState) (h : InvJobs s) :
    InvJobs (startTracker e s).2 := by
  obtain ⟨h1, h2, h3⟩ := h
  refine ⟨?_, ?_, ?_⟩
  · intro j t hl
    rw [show ((startTracker e s).2).jobs =
        ((s.nextJobId, ⟨e, 0, []⟩) :: s.jobs : List (Nat × JobTracker)) from rfl,
      lookupKey_cons] at hl
    by_cases hje : s.nextJobId = j
    · rw [if_pos hje] at hl
      cases hl
      exact ⟨Nat.zero_le e, (h3 j (le_of_eq hje)).2⟩
    · rw [if_neg hje] at hl
      exact h1 j t hl
  · intro j
    exact h2 j
  · intro j hge
    rw [show ((startTracker e s).2).nextJobId = s.nextJobId + 1 from rfl] at hge
    have hgs : s.nextJobId ≤ j := le_trans (Nat.le_succ _) hge
    have hne : s.nextJobId ≠ j := fun heq => by omega
    constructor
    · rw [show ((startTracker e s).2).jobs =
          ((s.nextJobId, ⟨e, 0, []⟩) :: s.jobs : List (Nat × JobTracker)) from rfl,
        lookupKey_cons, if_neg hne]
      exact (h3 j hgs).1
    · exact (h3 j hgs).2

theorem invJobs_aggregate (tid : String) (jid : Nat) (s : ProcState)
    (h : InvJobs s) : InvJobs (aggregate tid jid s) := by
  obtain ⟨h1, h2, h3⟩ := h
  unfold aggregate
  cases hjs : lookupKey jid s.jobs with
  | none => exact ⟨h1, h2, h3⟩
  | some tracker =>
    dsimp only
    by_cases hseen : tid ∈ tracker.parts_seen
    · rw [if_pos hseen]
      exact ⟨h1, h2, h3⟩
    · rw [if_neg hseen]
      have hjid_lt : ¬ s.nextJobId ≤ jid := fun hle => by
        rw [(h3 jid hle).1] at hjs
        cases hjs
      have hhk0 : countKey jid s.hookLog = 0 := (h1 jid tracker hjs).2
      split
      next hdone =>
        refine ⟨?_, ?_, ?_⟩
        · intro j t hl
          dsimp only at hl
          by_cases hje : j = jid
          · subst hje
            rw [lookupKey_eraseKey_self] at hl
            cases hl
          · rw [lookupKey_eraseKey_ne hje, lookupKey_updateKey_ne _ hje] at hl
            have hne2 : ¬ jid = j := fun e => hje e.symm
            refine ⟨(h1 j t hl).1, ?_⟩
            unfold countHook
            dsimp only
            rw [countKey_cons]
            dsimp only
            rw [if_neg hne2]
            have hz : countKey j s.hookLog = 0 := (h1 j t hl).2
            omega
        · intro j
          unfold countHook
          dsimp only
          rw [countKey_cons]
          dsimp only
          by_cases hje : jid = j
          · subst hje
            rw [if_pos rfl, hhk0]
          · rw [if_neg hje]
            have h2j : countKey j s.hookLog ≤ 1 := h2 j
            omega
        · intro j hge
          dsimp only at hge
          have hjne : j ≠ jid := fun heq => hjid_lt (by rw [← heq]; exact hge)
          refine ⟨?_, ?_⟩
          · dsimp only
            rw [lookupKey_eraseKey_ne hjne, lookupKey_updateKey_ne _ hjne]
            exact (h3 j hge).1
          · unfold countHook
            dsimp only
            rw [countKey_cons]
            dsimp only
            rw [if_neg (fun e => hjne e.symm)]
            have hz : countKey j s.hookLog = 0 := (h3 j hge).2
            omega
      next hdone =>
        refine ⟨?_, ?_, ?_⟩
        · intro j t hl
          dsimp only at hl
          by_cases hje : j = jid
          · subst hje
            rw [lookupKey_updateKey_self, hjs] at hl
            dsimp only [Option.map] at hl
            cases hl
            dsimp only at hdone ⊢
            constructor
            · omega
            · exact hhk0
          · rw [lookupKey_updateKey_ne _ hje] at hl
            exact h1 j t hl
        · intro j
          exact h2 j
        · intro j hge
          dsimp only at hge
          have hjne : j ≠ jid := fun heq => hjid_lt (by rw [← heq]; exact hge)
          refine ⟨?_, ?_⟩
          · dsimp only
            rw [lookupKey_updateKey_ne _ hjne]
            exact (h3 j hge).1
          · exact (h3 j hge).2

theorem lookupKey_cons_none {α β : Type} [DecidableEq α] {j : α} {kv : α × β}
    {l : List (α × β)} (h : lookupKey j (kv :: l) = none) : lookupKey j l = none := by
  rw [lookupKey_cons] at h
  by_cases hk : kv.1 = j
  · rw [if_pos hk] at h
    cases h
  · rwa [if_neg hk] at h

theorem dispatchLoop_state (ct : Patch → Except PyErr String) (img : String)
    (ps : List Patch) (s : ProcState) :
    (dispatchLoop ct img ps s).1.jobs = s.jobs ∧
    (dispatchLoop ct img ps s).1.hookLog = s.hookLog ∧
    (dispatchLoop ct img ps s).1.nextJobId = s.nextJobId ∧
    (dispatchLoop ct img ps s).1.released = s.released ∧
    (dispatchLoop ct img ps s).1.releaseEvents = s.releaseEvents ∧
    (dispatchLoop ct img ps s).1.capacity = s.capacity ∧
    (s.semValue ≤ s.capacity → (dispatchLoop ct img ps s).1.semValue ≤ s.capacity) := by
  induction ps generalizing s with
  | nil => exact ⟨rfl, rfl, rfl, rfl, rfl, rfl, fun hle => hle⟩
  | cons p rest ih =>
    unfold dispatchLoop
    by_cases h0 : s.semValue = 0
    · rw [if_pos h0]
      exact ⟨rfl, rfl, rfl, rfl, rfl, rfl, fun hle => hle⟩
    · rw [if_neg h0]
      dsimp only
      cases hct : ct p with
      | error e =>
        dsimp only
        refine ⟨rfl, rfl, rfl, rfl, rfl, rfl, ?_⟩
        intro hle
        unfold exceptRelease
        dsimp only
        split <;> omega
      | ok task =>
        dsimp only [mkTaskMetaBatch]
        refine ⟨rfl, rfl, rfl, rfl, rfl, rfl, ?_⟩
        intro hle
        unfold exceptRelease
        dsimp only
        split <;> omega

theorem invJobs_step {s s' : ProcState} (hst : Step s s') (h : InvJobs s) :
    InvJobs s' := by
  cases hst with
  | start e => exact invJobs_startTracker e s h
  | registerTask m => exact invJobs_of_eq rfl rfl rfl h
  | acquire h0 => exact invJobs_of_eq rfl rfl rfl h
  | failRelease => exact invJobs_of_eq rfl rfl rfl h
  | inbound p =>
    have he := onCallback_eq p s
    have hj : (onCallback p s).1.jobs = s.jobs := by
      rw [he]
      split <;> rfl
    have hh : (onCallback p s).1.hookLog = s.hookLog := by
      rw [he]
      split <;> rfl
    have hn : (onCallback p s).1.nextJobId = s.nextJobId := by
      rw [he]
      split <;> rfl
    exact invJobs_of_eq hj hh hn h
  | deferred dl p =>
    rcases runCallback_cases dl p (lookupKey (p.taskId.getD "") s.task_map) s with
      ⟨hj, hh, hn, _⟩ | ⟨tid, jid, s4, heq, hj, hh, hn, _⟩
    · exact invJobs_of_eq hj hh hn h
    · rw [heq]
      exact invJobs_aggregate tid jid s4 (invJobs_of_eq hj hh hn h)
  | batch ct img patches =>
    unfold runBatchJob
    dsimp only
    split
    · exact invJobs_startTracker _ _ (invJobs_startTracker 1 s h)
    · have h2s := invJobs_startTracker patches.length _ (invJobs_startTracker 1 s h)
      rcases dispatchLoop_state ct img patches
        ((startTracker patches.length (startTracker 1 s).2).2) with ⟨hj, hh, hn, _⟩
      exact invJobs_of_eq hj hh hn h2s

theorem hook_fires_on_removal {s s' : ProcState} (hst : Step s s') (h : InvJobs s)
    (j : Nat) (hne : lookupKey j s.jobs ≠ none) (hnone : lookupKey j s'.jobs = none) :
    countHook s' j = 1 := by
  obtain ⟨h1, h2, h3⟩ := h
  cases hst with
  | start e => exact absurd (lookupKey_cons_none hnone) hne
  | registerTask m => exact absurd hnone hne
  | acquire h0 => exact absurd hnone hne
  | failRelease => exact absurd hnone hne
  | inbound p =>
    have he := onCallback_eq p s
    have hj : (onCallback p s).1.jobs = s.jobs := by
      rw [he]
      split <;> rfl
    rw [hj] at hnone
    exact absurd hnone hne
  | batch ct img patches =>
    have hshape : (runBatchJob ct img patches s).1.jobs =
        ((startTracker patches.length (startTracker 1 s).2).2).jobs := by
      unfold runBatchJob
      dsimp only
      split
      · rfl
      · exact (dispatchLoop_state ct img patches _).1
    rw [hshape] at hnone
    exact absurd (lookupKey_cons_none (lookupKey_cons_none hnone)) hne
  | deferred dl p =>
    rcases runCallback_cases dl p (lookupKey (p.taskId.getD "") s.task_map) s with
      ⟨hj, hh, hn, _⟩ | ⟨tid, jid, s4, heq, hj4, hh4, hn4, _⟩
    · rw [hj] at hnone
      exact absurd hnone hne
    · rw [heq] at hnone ⊢
      unfold aggregate at hnone ⊢
      cases hjs : lookupKey jid s4.jobs with
      | none =>
        rw [hjs] at hnone
        dsimp only at hnone
        rw [hj4] at hnone
        exact absurd hnone hne
      | some tracker =>
        rw [hjs] at hnone
        dsimp only at hnone ⊢
        by_cases hseen : tid ∈ tracker.parts_seen
        · rw [if_pos hseen] at hnone ⊢
          rw [hj4] at hnone
          exact absurd hnone hne
        · rw [if_neg hseen] at hnone ⊢
          by_cases hdone : tracker.expected ≤ tracker.done + 1
          · rw [if_pos hdone] at hnone ⊢
            by_cases hje : j = jid
            · subst hje
              unfold countHook
              dsimp only
              rw [countKey_cons]
              dsimp only
              rw [if_pos rfl]
              have hlook : lookupKey j s.jobs = some tracker := by
                rw [← hj4]
                exact hjs
              have hz : countKey j s.hookLog = 0 := (h1 j tracker hlook).2
              rw [hh4]
              omega
            · exfalso
              dsimp only at hnone
              rw [lookupKey_eraseKey_ne hje, lookupKey_updateKey_ne _ hje, hj4] at hnone
              exact hne hnone
          · exfalso
            rw [if_neg hdone] at hnone
            dsimp only at hnone
            by_cases hje : j = jid
            · subst hje
              rw [lookupKey_updateKey_self, hjs] at hnone
              dsimp only [Option.map] at hnone
              cases hnone
            · rw [lookupKey_updateKey_ne _ hje, hj4] at hnone
              exact hne hnone

/-- The invariant of the admission controller: the bounded semaphore never
exceeds its configured capacity, and the guarded release of `on_callback` has
fired exactly once for a task id in the released set and never otherwise. -/
def InvSem (s : ProcState) : Prop :=
  s.semValue ≤ s.capacity ∧ ∀ t, countRel s t = if t ∈ s.released then 1 else 0

theorem invSem_of_eq {s s' : ProcState} (hv : s'.semValue = s.semValue)
    (hc : s'.capacity = s.capacity) (hr : s'.released = s.released)
    (he : s'.releaseEvents = s.releaseEvents) (h : InvSem s) : InvSem s' := by
  unfold InvSem countRel at *
  rw [hv, hc, hr, he]
  exact h

theorem invSem_step {s s' : ProcState} (hst : Step s s') (h : InvSem s) :
    InvSem s' := by
  obtain ⟨hcap, hcnt⟩ := h
  cases hst with
  | start e => exact ⟨hcap, hcnt⟩
  | registerTask m => exact ⟨hcap, hcnt⟩
  | acquire h0 => exact ⟨le_trans (Nat.sub_le _ _) hcap, hcnt⟩
  | failRelease =>
    refine ⟨?_, hcnt⟩
    unfold exceptRelease
    dsimp only
    split <;> omega
  | inbound p =>
    have he := onCallback_eq p s
    by_cases hcond : p.taskId.getD "" ≠ "" ∧ p.taskId.getD "" ∉ s.released
    · have h1 : (onCallback p s).1 =
          { exceptRelease s with
            released := ((p.taskId.getD "") :: s.released),
            releaseEvents := ((p.taskId.getD "") :: s.releaseEvents) } := by
        rw [he]
        dsimp only
        rw [if_pos hcond]
      rw [h1]
      refine ⟨?_, ?_⟩
      · unfold exceptRelease
        dsimp only
        split <;> omega
      · intro t
        unfold countRel
        dsimp only
        rw [countElem_cons]
        by_cases hte : p.taskId.getD "" = t
        · subst hte
          rw [if_pos rfl]
          have h0 : countRel s (p.taskId.getD "") = 0 := by
            rw [hcnt (p.taskId.getD ""), if_neg hcond.2]
          unfold countRel at h0
          rw [if_pos (List.mem_cons_self _ _)]
          omega
        · rw [if_neg hte]
          have hmem : (t ∈ (p.taskId.getD "") :: s.released) ↔ t ∈ s.released := by
            rw [List.mem_cons]
            constructor
            · intro hor
              cases hor with
              | inl hl => exact absurd hl.symm hte
              | inr hr => exact hr
            · intro hm
              exact Or.inr hm
          have hct := hcnt t
          unfold countRel at hct
          by_cases hmt : t ∈ s.released
          · rw [if_pos (hmem.mpr hmt)]
            rw [if_pos hmt] at hct
            omega
          · rw [if_neg (fun hx => hmt (hmem.mp hx))]
            rw [if_neg hmt] at hct
            omega
    · have h1 : (onCallback p s).1 = s := by
        rw [he]
        dsimp only
        rw [if_neg hcond]
      rw [h1]
      exact ⟨hcap, hcnt⟩
  | deferred dl p =>
    rcases runCallback_cases dl p (lookupKey (p.taskId.getD "") s.task_map) s with
      ⟨_, _, _, hv, hc, hr, hre⟩ | ⟨tid, jid, s4, heq, _, _, _, hv, hc, hr, hre⟩
    · exact invSem_of_eq hv hc hr hre ⟨hcap, hcnt⟩
    · rw [heq]
      rcases aggregate_frame tid jid s4 with ⟨av, ac, ar, are, _, _, _⟩
      exact invSem_of_eq (av.trans hv) (ac.trans hc) (ar.trans hr) (are.trans hre)
        ⟨hcap, hcnt⟩
  | batch ct img patches =>
    unfold runBatchJob
    dsimp only
    split
    · exact ⟨hcap, hcnt⟩
    · rcases dispatchLoop_state ct img patches
        ((startTracker patches.length (startTracker 1 s).2).2) with
        ⟨_, _, _, hr, hre, hc, hsem⟩
      refine ⟨?_, ?_⟩
      · rw [hc]
        exact hsem hcap
      · intro t
        unfold countRel
        rw [hre, hr]
        have hct := hcnt t
        unfold countRel at hct
        exact hct

theorem invJobs_reach {s : ProcState} (h : Reach s) : InvJobs s := by
  induction h with
  | init c =>
    refine ⟨?_, ?_, ?_⟩
    · intro j t hl
      cases hl
    · intro j
      exact Nat.le_of_lt Nat.zero_lt_one
    · intro j _
      exact ⟨rfl, rfl⟩
  | next _ hst ih => exact invJobs_step hst ih

theorem invSem_reach {s : ProcState} (h : Reach s) : InvSem s := by
  induction h with
  | init c =>
    refine ⟨le_refl c, ?_⟩
    intro t
    rfl
  | next _ hst ih => exact invSem_step hst ih

theorem aggregate_seen (tid : String) (jid : Nat) (s : ProcState) :
    ∀ tr, lookupKey jid (aggregate tid jid s).jobs = some tr →
      tid ∈ tr.parts_seen := by
  unfold aggregate
  cases hjs : lookupKey jid s.jobs with
  | none =>
    intro tr hl
    rw [hjs] at hl
    cases hl
  | some tracker =>
    dsimp only
    by_cases hseen : tid ∈ tracker.parts_seen
    · rw [if_pos hseen]
      intro tr hl
      rw [hjs] at hl
      cases hl
      exact hseen
    · rw [if_neg hseen]
      split
      · intro tr hl
        dsimp only at hl
        rw [lookupKey_eraseKey_self] at hl
        cases hl
      · intro tr hl
        dsimp only at hl
        rw [lookupKey_updateKey_self, hjs] at hl
        dsimp only [Option.map] at hl
        cases hl
        exact List.mem_cons_self _ _

theorem runCallback_task_map (dl : Option String → Except Unit (List Nat))
    (p : Payload) (m : TaskMeta) (s : ProcState) :
    (runCallback dl p (some m) s).1.task_map = eraseKey m.task_id s.task_map := by
  unfold runCallback
  dsimp only
  cases hpe : p.eventData with
  | none => rfl
  | some ed =>
    dsimp only
    by_cases hc : ed.code ≠ some 0
    · rw [if_pos hc]
    · rw [if_neg hc]
      cases hd : ed.data with
      | none => rfl
      | some d =>
        dsimp only
        cases hdl : dl d.fileUrl with
        | error e => rfl
        | ok piece =>
          dsimp only
          exact (aggregate_frame m.task_id m.job_id _).2.2.2.2.2.2

/-- C1: at every reachable observation point, every job still tracked by the
registry has `done ≤ expected` and a completion hook that has not fired;
no job's completion hook ever fires more than once; and the one step that
removes a job's registry entry (the completion pop of `_run_callback`)
leaves its hook fired exactly once — the removal is what prevents a second
completion check from observing completion and firing the hook again. -/
theorem job_done_le_expected_and_hook_fires_once {s : ProcState} (h : Reach s) :
    (∀ j t, lookupKey j s.jobs = some t →
      t.done ≤ t.expected ∧ countHook s j = 0) ∧
    (∀ j, countHook s j ≤ 1) ∧
    (∀ s' : ProcState, Step s s' → ∀ j, lookupKey j s.jobs ≠ none →
      lookupKey j s'.jobs = none → countHook s' j = 1) := by
  refine ⟨(invJobs_reach h).1, (invJobs_reach h).2.1, ?_⟩
  intro s' hst j hne hnone
  exact hook_fires_on_removal hst (invJobs_reach h) j hne hnone

theorem job_done_le_expected_and_hook_fires_once_w :
    (∀ j t, lookupKey j ((startTracker 2 (initState 5)).2).jobs = some t →
      t.done ≤ t.expected ∧ countHook (startTracker 2 (initState 5)).2 j = 0) ∧
    (∀ j, countHook (startTracker 2 (initState 5)).2 j ≤ 1) ∧
    (∀ s' : ProcState, Step (startTracker 2 (initState 5)).2 s' →
      ∀ j, lookupKey j ((startTracker 2 (initState 5)).2).jobs ≠ none →
        lookupKey j s'.jobs = none → countHook s' j = 1) :=
  job_done_le_expected_and_hook_fires_once
    (Reach.next (Reach.init 5) (Step.start (initState 5) 2))

/-- C2: in every reachable state, the guarded release of `on_callback` has
fired at most once per task id (a retransmitted callback finds the id in the
released set and is ignored), and the number of outstanding admission grants,
`capacity - semValue`, never exceeds the configured capacity (the bounded
semaphore value itself never exceeds the capacity). -/
theorem admission_release_once_and_capacity_bound {s : ProcState} (h : Reach s) :
    (∀ t, countRel s t ≤ 1) ∧ s.semValue ≤ s.capacity ∧
    s.capacity - s.semValue ≤ s.capacity := by
  obtain ⟨hcap, hcnt⟩ := invSem_reach h
  refine ⟨?_, hcap, Nat.sub_le _ _⟩
  intro t
  rw [hcnt t]
  split <;> omega

def c2Mid : ProcState :=
  { initState 2 with
    semValue := (initState 2).semValue - 1,
    acquires := (initState 2).acquires + 1 }

def c2Wit : ProcState :=
  (onCallback { taskId := some "t1", eventData := none } c2Mid).1

theorem admission_release_once_and_capacity_bound_w :
    (∀ t, countRel c2Wit t ≤ 1) ∧ c2Wit.semValue ≤ c2Wit.capacity ∧
    c2Wit.capacity - c2Wit.semValue ≤ c2Wit.capacity :=
  admission_release_once_and_capacity_bound
    (Reach.next (Reach.next (Reach.init 2) (Step.acquire (initState 2) (by decide)))
      (Step.inbound c2Mid { taskId := some "t1", eventData := none }))

/-- The instance attributes assigned by `AIClient.__init__` (ai_client.py
lines 16-21); `timeout`, which `download_from_callback` reads at line 82, is
not among them. -/
def aiClientInitAttrs : List String :=
  ["api_base", "api_key", "workflow_single", "workflow_batch", "webhook_url"]

/-- `AIClient.download_from_callback` (ai_client.py lines 81-84): the request
is issued with `timeout=self.timeout`, and since `timeout` is not an
attribute of `AIClient`, the call raises `AttributeError` before any network
traffic; the caller's bare `except` merely logs it, so the error payload is
irrelevant.  The success branch models what the download would return were
the attribute defined; it is unreachable. -/
def downloadFromCallback (_url : Option String) : Except Unit (List Nat) :=
  if "timeout" ∈ aiClientInitAttrs then Except.ok [] else Except.error ()

theorem timeout_not_defined : "timeout" ∉ aiClientInitAttrs := by decide

theorem downloadFromCallback_fails (u : Option String) :
    downloadFromCallback u = Except.error () := by
  unfold downloadFromCallback
  rw [if_neg timeout_not_defined]

/-- C3 (amended): delivering the same callback payload a second time, after
its first delivery has run through the deferred handler with the program's
actual downloader, leaves the job's `done` count unchanged, triggers no
second download and causes no duplicate invocation of the completion hook —
but not because the task id is found in the job's seen-set.  The first
delivery never reaches the aggregation block (the download raises on the
undefined `AIClient.timeout`, leaving `piece` unbound, so the save line
raises `NameError`), hence the jobs registry — every tracker's `done` and
seen-set — and the hook log are untouched by the first delivery; the second
delivery is a no-op because the first run already popped the `TaskMeta`, so
the lookup of line 132 yields `none` and `_run_callback` returns at once
with the state unchanged. -/
theorem duplicate_callback_delivery_noop (p : Payload) (m : TaskMeta)
    (s0 : ProcState) (hid : m.task_id = p.taskId.getD "") :
    (runCallback downloadFromCallback p (some m) s0).1.jobs = s0.jobs ∧
    (runCallback downloadFromCallback p (some m) s0).1.hookLog = s0.hookLog ∧
    runCallback downloadFromCallback p
        (lookupKey (p.taskId.getD "")
          ((runCallback downloadFromCallback p (some m) s0).1).task_map)
        ((runCallback downloadFromCallback p (some m) s0).1) =
      (((runCallback downloadFromCallback p (some m) s0).1), none) := by
  have hframe : (runCallback downloadFromCallback p (some m) s0).1.jobs = s0.jobs ∧
      (runCallback downloadFromCallback p (some m) s0).1.hookLog = s0.hookLog := by
    unfold runCallback
    dsimp only
    cases hpe : p.eventData with
    | none => exact ⟨rfl, rfl⟩
    | some ed =>
      dsimp only
      by_cases hc : ed.code ≠ some 0
      · rw [if_pos hc]
        exact ⟨rfl, rfl⟩
      · rw [if_neg hc]
        cases hd : ed.data with
        | none => exact ⟨rfl, rfl⟩
        | some d =>
          dsimp only
          rw [downloadFromCallback_fails]
          exact ⟨rfl, rfl⟩
  have hlook : lookupKey (p.taskId.getD "")
      ((runCallback downloadFromCallback p (some m) s0).1).task_map = none := by
    rw [runCallback_task_map, ← hid, lookupKey_eraseKey_self]
  refine ⟨hframe.1, hframe.2, ?_⟩
  rw [hlook]
  rfl

def c3Meta : TaskMeta :=
  { task_id := "t1", output := "o.png", job_id := 0, feather := false }

def c3Start : ProcState :=
  { initState 3 with
    task_map := [("t1", c3Meta)],
    jobs := [(0, { expected := 2, done := 0, parts_seen := [] })] }

def c3Payload : Payload :=
  { taskId := some "t1",
    eventData := some { code := some 0, data := some { fileUrl := some "u" } } }

/-- C3 counterexample: the first delivery of a well-formed success payload
for a known task is never fully processed by the source: the download raises
on the undefined `AIClient.timeout`, the bare `except` leaves `piece`
unbound, and the save line then raises `NameError` before the aggregation
block — the `TaskMeta` is popped and the download attempt logged, but the
job's tracker still has `done = 0` and an empty seen-set, so the task id is
never found in the job's seen-set, contrary to the claim. -/
theorem first_delivery_never_populates_seen_set :
    runCallback downloadFromCallback c3Payload (some c3Meta) c3Start =
      ({ c3Start with task_map := [], downloads := [some "u"] },
        some PyErr.nameError) ∧
    (∀ tr, lookupKey c3Meta.job_id
        ((runCallback downloadFromCallback c3Payload (some c3Meta) c3Start).1).jobs =
          some tr → c3Meta.task_id ∉ tr.parts_seen) := by
  constructor
  · decide
  · intro tr hl
    have he : lookupKey c3Meta.job_id
        ((runCallback downloadFromCallback c3Payload (some c3Meta) c3Start).1).jobs =
        some { expected := 2, done := 0, parts_seen := [] } := by decide
    rw [he] at hl
    cases hl
    decide

theorem duplicate_callback_delivery_noop_w :
    (runCallback downloadFromCallback c3Payload (some c3Meta) c3Start).1.jobs =
      c3Start.jobs ∧
    (runCallback downloadFromCallback c3Payload (some c3Meta) c3Start).1.hookLog =
      c3Start.hookLog ∧
    runCallback downloadFromCallback c3Payload
        (lookupKey (c3Payload.taskId.getD "")
          ((runCallback downloadFromCallback c3Payload (some c3Meta) c3Start).1).task_map)
        ((runCallback downloadFromCallback c3Payload (some c3Meta) c3Start).1) =
      (((runCallback downloadFromCallback c3Payload (some c3Meta) c3Start).1), none) :=
  duplicate_callback_delivery_noop c3Payload c3Meta c3Start rfl

/-- C4 (amended): `on_callback` raises an exception before the deferred
download/aggregate work is ever enqueued, for every payload: the submission
line refers to the attribute `callback_exec`, which `__init__` never defines
(the pool is stored as `callback_pool`), and since the call target is
resolved before its arguments, the line raises `AttributeError` in every
case — also when `taskId` is missing or empty, where the local `meta` is
additionally never bound but the `NameError` is preempted.  The guarded
semaphore release for the task id has already happened by that point, as the
released set of the post-state shows. -/
theorem on_callback_always_raises_before_enqueue (p : Payload) (s : ProcState) :
    (onCallback p s).2 = Except.error PyErr.attributeError ∧
    (onCallback p s).1.pending = s.pending ∧
    "callback_exec" ∉ initAttrs ∧
    (onCallback p s).1.released =
      (if p.taskId.getD "" ≠ "" ∧ p.taskId.getD "" ∉ s.released then
        ((p.taskId.getD "") :: s.released)
      else s.released) := by
  have he := onCallback_eq p s
  refine ⟨by rw [he], ?_, callback_exec_not_defined, ?_⟩
  · rw [he]
    dsimp only
    by_cases hcond : p.taskId.getD "" ≠ "" ∧ p.taskId.getD "" ∉ s.released
    · rw [if_pos hcond]
      rfl
    · rw [if_neg hcond]
  · rw [he]
    dsimp only
    by_cases hcond : p.taskId.getD "" ≠ "" ∧ p.taskId.getD "" ∉ s.released
    · rw [if_pos hcond, if_pos hcond]
    · rw [if_neg hcond, if_neg hcond]

/-- C4 counterexample to the claim as stated: on a payload with a missing
`taskId` the submission line of `on_callback` raises `AttributeError` — the
lookup of the undefined `callback_exec` attribute fails before the unbound
local `meta` would be evaluated — not the `NameError` the claim asserts. -/
theorem on_callback_empty_taskid_attribute_error :
    (onCallback { taskId := none, eventData := none } (initState 30)).2 =
      Except.error PyErr.attributeError ∧
    (Except.error PyErr.attributeError : Except PyErr Unit) ≠
      Except.error PyErr.nameError := by
  constructor
  · rfl
  · exact fun h => PyErr.noConfusion (Except.error.inj h)

/-- C5 (code bug): an inbound callback whose task id is unknown — absent from
the task registry and never seen before — is not discarded as a no-op.
Evaluated on the concrete id `"ghost"` against a processor with one permit
outstanding: `on_callback` releases admission capacity (the semaphore value
returns to 30), records the id in the released set, and then raises
`AttributeError` at the submission line, contradicting "no state change, no
release, no error". -/
theorem unknown_task_callback_releases_capacity :
    (onCallback { taskId := some "ghost", eventData := none }
        { initState 30 with semValue := 29 }).1 =
      { initState 30 with
        semValue := 30,
        released := ["ghost"],
        releaseEvents := ["ghost"] } ∧
    (onCallback { taskId := some "ghost", eventData := none }
        { initState 30 with semValue := 29 }).2 =
      Except.error PyErr.attributeError := by
  constructor
  · decide
  · rfl

def c6Meta : TaskMeta :=
  { task_id := "t1", output := "out.png", job_id := 0, feather := false }

def c6Start : ProcState :=
  { initState 30 with
    task_map := [("t1", c6Meta)],
    jobs := [(0, { expected := 1, done := 0, parts_seen := [] })] }

def c6Payload : Payload :=
  { taskId := some "t1", eventData := some { code := some 1, data := none } }

/-- C6 (code bug): for a known task whose callback carries a non-zero event
code, the deferred handler pops the `TaskMeta` and returns at the
`ed.get("code") != 0` check without counting the task toward its job: the
tracker keeps `done = 0` against `expected = 1`, no hook fires, and with the
meta gone the job can never complete — the claim (and the spec's correctness
requirement) says the task must still be counted so completion is reached. -/
theorem failed_event_not_counted :
    runCallback (fun _ => Except.ok []) c6Payload (some c6Meta) c6Start =
      ({ c6Start with task_map := [] }, none) := rfl

/-- C7 (code bug): a batch job whose extraction yields zero patches is not
finalized: `run_batch_job` starts TWO trackers (the spurious `expected = 1`
one whose id it returns, and the `expected = 0` one whose id it discards),
returns the empty part list, fires no completion hook, and leaves both
registry entries dangling forever — the claim says the hook fires exactly
once with an empty part list and no dangling entry remains.  No capacity is
consumed and no task dispatched, which is the only part the code gets right. -/
theorem zero_patch_batch_left_dangling :
    runBatchJob (fun _ => Except.error PyErr.valueError) "img.png" [] (initState 30) =
      ({ initState 30 with
          jobs := [(1, { expected := 0, done := 0, parts_seen := [] }),
            (0, { expected := 1, done := 0, parts_seen := [] })],
          nextJobId := 2 },
        BatchOutcome.ret 0 []) := rfl

def c8PatchA : Patch :=
  { part_id := "0", prompt := "",
    bbox := { x_min := 0, y_min := 0, x_max := 1, y_max := 1 } }

def c8PatchB : Patch :=
  { part_id := "1", prompt := "",
    bbox := { x_min := 1, y_min := 1, x_max := 2, y_max := 2 } }

/-- C8 (code bug): on a batch of two patches whose remote task creation
succeeds, the first dispatch nevertheless fails (the `TaskMeta(...,
part_id=...)` constructor raises `TypeError`); the except branch releases the
acquired permit synchronously — the semaphore is back at 30 — and re-raises,
which aborts the loop: only one acquisition ever happens, the second patch is
never dispatched, no failure is recorded, and the job's trackers keep
`expected = 1` and `expected = 2`, never reconciled down, so completion is
unreachable — the claim requires the remaining patches to be dispatched and
`expected` to be reconciled before the loop exits. -/
theorem dispatch_failure_aborts_batch_loop :
    runBatchJob (fun _ => Except.ok "t1") "img.png" [c8PatchA, c8PatchB]
        (initState 30) =
      ({ initState 30 with
          jobs := [(1, { expected := 2, done := 0, parts_seen := [] }),
            (0, { expected := 1, done := 0, parts_seen := [] })],
          nextJobId := 2,
          acquires := 1 },
        BatchOutcome.raised PyErr.typeError) := by
  decide

/-- C9: every patch emitted by the extractor has a bounding box inside
`[0,W] × [0,H]` with strictly positive width and height, and it stems from
some region of the config with at least 4 points, whose clamped floor/ceil
box it carries, tagged with the region's original index (as a string) as its
stable part identifier. -/
theorem crop_patches_bbox_within_bounds (W H : ℤ) (diffs : List Region)
    (origin : CoordOrigin) (pa : Patch)
    (hmem : pa ∈ cropPatchesAABB W H diffs origin) :
    0 ≤ pa.bbox.x_min ∧ pa.bbox.x_min < pa.bbox.x_max ∧ pa.bbox.x_max ≤ W ∧
    0 ≤ pa.bbox.y_min ∧ pa.bbox.y_min < pa.bbox.y_max ∧ pa.bbox.y_max ≤ H ∧
    ∃ idx d, (idx, d) ∈ diffs.enum ∧ 4 ≤ d.points.length ∧
      cropRegion W H origin idx d = some pa ∧ pa.part_id = toString idx := by
  rcases List.mem_filterMap.mp hmem with ⟨pr, hpr, hcr⟩
  obtain ⟨idx, d⟩ := pr
  have hcr0 := hcr
  unfold cropRegion at hcr
  by_cases hlen : d.points.length < 4
  · rw [if_pos hlen] at hcr
    cases hcr
  · rw [if_neg hlen] at hcr
    cases hq : normPointsToPixels d.points W H origin with
    | nil =>
      rw [hq] at hcr
      cases hcr
    | cons q qs =>
      rw [hq] at hcr
      dsimp only at hcr
      split at hcr
      · cases hcr
      next hgood =>
        cases hcr
        push_neg at hgood
        dsimp only
        refine ⟨le_max_left _ _, hgood.1, min_le_left _ _,
          le_max_left _ _, hgood.2, min_le_left _ _,
          idx, d, hpr, by omega, hcr0, rfl⟩

def c9Region : Region :=
  { points := [{ x := 0, y := 0 }, { x := 1/2, y := 1/2 }, { x := 1/2, y := 0 },
      { x := 0, y := 1/2 }], text := "p" }

def c9Patch : Patch :=
  { part_id := "0", prompt := "p",
    bbox := { x_min := 0, y_min := 0, x_max := 5, y_max := 4 } }

theorem crop_patches_bbox_within_bounds_w :
    0 ≤ c9Patch.bbox.x_min ∧ c9Patch.bbox.x_min < c9Patch.bbox.x_max ∧
    c9Patch.bbox.x_max ≤ 10 ∧
    0 ≤ c9Patch.bbox.y_min ∧ c9Patch.bbox.y_min < c9Patch.bbox.y_max ∧
    c9Patch.bbox.y_max ≤ 8 ∧
    ∃ idx d, (idx, d) ∈ [c9Region].enum ∧ 4 ≤ d.points.length ∧
      cropRegion 10 8 CoordOrigin.topLeft idx d = some c9Patch ∧
      c9Patch.part_id = toString idx :=
  crop_patches_bbox_within_bounds 10 8 [c9Region] CoordOrigin.topLeft c9Patch
    (by
      have hc1 : (⌈(9:ℚ)/2⌉ : ℤ) = 5 := by norm_num [Int.ceil_eq_iff]
      have hc2 : (⌈(7:ℚ)/2⌉ : ℤ) = 4 := by norm_num [Int.ceil_eq_iff]
      have h : cropPatchesAABB 10 8 [c9Region] CoordOrigin.topLeft = [c9Patch] := by
        unfold cropPatchesAABB c9Region cropRegion normPointsToPixels
        norm_num [List.enum, List.filterMap, min_def, max_def, c9Patch, hc1, hc2]
        rfl
      rw [h]
      exact List.mem_singleton_self _)

theorem interiorMask_cases (a b i j : Nat) :
    interiorMask a b i j = 0 ∨ interiorMask a b i j = 255 := by
  unfold interiorMask
  split
  · split
    · exact Or.inr rfl
    · exact Or.inl rfl
  · exact Or.inr rfl

def c10Gray : Image := { rows := 3, cols := 3, channels := 1, px := fun _ _ _ => 7 }

/-- C10 counterexample to the claim as stated: with feather radius 0 on a 3×3
grayscale patch the added alpha channel is NOT fully opaque — the corner
pixel of the output has alpha 0, because the binary interior mask zeroes the
one-pixel border ring. -/
theorem feather_zero_border_not_opaque :
    outAlpha (featherImage (fun _ _ => 0) c10Gray 0) 0 0 = some 0 ∧
    (0 : Nat) ≠ 255 := by
  constructor
  · unfold outAlpha featherImage c10Gray alphaUnit interiorMask
    norm_num [min_def, max_def]
  · decide

/-- C10 (amended): applying the feathering step with radius 0 to a plain
3-channel patch reproduces the original colour samples exactly, and the
added alpha channel equals the binary interior mask scaled to 0..255: fully
opaque strictly inside, zero on the one-pixel border ring, and fully opaque
everywhere only when one dimension is at most 2 pixels — not fully opaque
everywhere, as the claim asserts. -/
theorem feather_zero_alpha_is_binary_mask (dist : Nat → Nat → ℚ) (img : Image)
    (h1 : img.channels = 3) (h2 : 0 < img.rows) (h3 : 0 < img.cols) :
    ∃ o, featherImage dist img 0 = Except.ok o ∧
      (∀ i j c, c < 3 → o.px i j c = img.px i j c) ∧
      (∀ i j, o.px i j 3 = interiorMask img.rows img.cols i j) := by
  unfold featherImage
  rw [if_neg (by omega : ¬(img.rows = 0 ∨ img.cols = 0))]
  rw [if_pos (Or.inr (Or.inl h1) :
    img.channels = 1 ∨ img.channels = 3 ∨ img.channels = 4)]
  refine ⟨_, rfl, ?_, ?_⟩
  · intro i j c hc
    dsimp only
    rw [if_pos hc, if_neg (by omega : ¬ img.channels = 1)]
  · intro i j
    dsimp only
    rw [if_neg (by omega : ¬ (3:Nat) < 3)]
    rw [if_neg (by omega : ¬ img.channels = 4)]
    unfold alphaUnit
    rw [if_neg (by omega : ¬ 0 < 0)]
    rcases interiorMask_cases img.rows img.cols i j with hm | hm
    · rw [hm]
      rw [if_neg (by omega : ¬ 0 < 0)]
      norm_num [min_def, max_def]
    · rw [hm]
      rw [if_pos (by omega : 0 < 255)]
      norm_num [min_def, max_def]
      rfl

def c10Color : Image := { rows := 4, cols := 4, channels := 3, px := fun _ _ _ => 9 }

theorem feather_zero_alpha_is_binary_mask_w :
    ∃ o, featherImage (fun _ _ => 0) c10Color 0 = Except.ok o ∧
      (∀ i j c, c < 3 → o.px i j c = c10Color.px i j c) ∧
      (∀ i j, o.px i j 3 = interiorMask c10Color.rows c10Color.cols i j) :=
  feather_zero_alpha_is_binary_mask (fun _ _ => 0) c10Color rfl
    (by decide) (by decide)
